import Mathlib

/-!
Verification development for the DASH-to-HLS gateway (Rust sources in
`src/main.rs`, `src/dash_to_hls.rs`).  The repository's pure logic is
shallowly embedded: HTTP fetches, subprocess results and the file system
are explicit parameters or explicit state, byte strings are `List Nat`,
and fallible paths return `Except`.
-/

/-! ## File-system model

The scratch directory is modelled as an association list from path to
contents.  `fs::write` overwrites, `fs::remove_file` deletes (its error
is ignored in the source via `.ok()`). -/

def fsWrite (fs : List (String × List Nat)) (p : String) (d : List Nat) :
    List (String × List Nat) :=
  (p, d) :: fs.filter (fun e => e.1 ≠ p)

def fsRemove (fs : List (String × List Nat)) (p : String) :
    List (String × List Nat) :=
  fs.filter (fun e => e.1 ≠ p)

def fsHas (fs : List (String × List Nat)) (p : String) : Bool :=
  fs.any (fun e => e.1 = p)

/-! ## Pipeline model (`DashToHlsConverter::download_and_process_segments`)

External effects are supplied by an environment: `fetch url` is the
result of a blocking GET (`none` collapses the source's send error,
non-2xx status and body-read error, all of which abort the media path
and are swallowed on the init path); `decrypt` is
`DashToHlsConverter::decrypt_segment` on the combined bytes; `mux` is
`mux_to_ts` applied to the contents of the two temp files; `pusherWrite`
is `LiveHlsPusher::write`. -/

structure PipeEnv where
  fetch : String → Option (List Nat)
  decrypt : List Nat → Except String (List Nat)
  mux : List Nat → List Nat → Except String (List Nat)
  pusherWrite : List Nat → Except String Unit

/-- Mutable converter state: `last_processed_segments`,
`sequence_number`, the `init_segments` map (which only ever holds the
keys "video" and "audio", modelled as two options), the `is_active`
flag, and the scratch-directory contents. -/
structure PipeState where
  lastProcessed : List String × List String
  seq : Nat
  initVideo : Option (List Nat)
  initAudio : Option (List Nat)
  isActive : Bool
  fs : List (String × List Nat)
deriving DecidableEq

def videoTempFile (seq : Nat) : String :=
  "video_" ++ toString seq ++ ".mp4"

def audioTempFile (seq : Nat) : String :=
  "audio_" ++ toString seq ++ ".mp4"

/-- `DashToHlsConverter::download_and_decrypt_segment`: GET the segment
(error on failure), prepend the cached init bytes for this kind when
present, then decrypt. -/
def downloadAndDecryptSegment (env : PipeEnv) (cachedInit : Option (List Nat))
    (url : String) : Except String (List Nat) :=
  match env.fetch url with
  | none => .error ("HTTP error on " ++ url)
  | some bytes =>
    let combined := match cachedInit with
      | some i => i ++ bytes
      | none => bytes
    env.decrypt combined

deriving instance DecidableEq for Except

/-- Result of one `download_and_process_segments` call, instrumented
with the ordered list of URLs fetched and the (video, audio) URL pairs
whose muxed TS bytes were appended to the HLS writer. -/
structure RunOut where
  state : PipeState
  fetched : List String
  emitted : List (String × String)
  result : Except String Unit
deriving DecidableEq

/-- The `for i in 0..min_len` body of `download_and_process_segments`
(source lines 545-579), recursing over the list of indices.  Note that
the source never increments `sequence_number` and removes the two temp
files only after a successful mux and pusher write. -/
def pairLoop (env : PipeEnv) (videoSegments audioSegments : List String)
    (st : PipeState) (fetched : List String)
    (emitted : List (String × String)) : List Nat → RunOut
  | [] => { state := st, fetched := fetched, emitted := emitted, result := .ok () }
  | i :: rest =>
    if !st.isActive then
      { state := st, fetched := fetched, emitted := emitted, result := .ok () }
    else
      let videoUrl := videoSegments.getD i ""
      let audioUrl := audioSegments.getD i ""
      if st.lastProcessed.1.contains videoUrl && st.lastProcessed.2.contains audioUrl then
        pairLoop env videoSegments audioSegments st fetched emitted rest
      else
        let fetched1 := fetched ++ [videoUrl]
        match downloadAndDecryptSegment env st.initVideo videoUrl with
        | .error e =>
          { state := st, fetched := fetched1, emitted := emitted, result := .error e }
        | .ok videoData =>
          let videoFile := videoTempFile st.seq
          let stV := { st with fs := fsWrite st.fs videoFile videoData }
          let fetched2 := fetched1 ++ [audioUrl]
          match downloadAndDecryptSegment env stV.initAudio audioUrl with
          | .error e =>
            { state := stV, fetched := fetched2, emitted := emitted, result := .error e }
          | .ok audioData =>
            let audioFile := audioTempFile st.seq
            let stA := { stV with fs := fsWrite stV.fs audioFile audioData }
            match env.mux videoData audioData with
            | .error e =>
              { state := stA, fetched := fetched2, emitted := emitted, result := .error e }
            | .ok tsData =>
              match env.pusherWrite tsData with
              | .error e =>
                { state := stA, fetched := fetched2, emitted := emitted, result := .error e }
              | .ok _ =>
                let stDone := { stA with
                  fs := fsRemove (fsRemove stA.fs videoFile) audioFile }
                pairLoop env videoSegments audioSegments stDone fetched2
                  (emitted ++ [(videoUrl, audioUrl)]) rest

/-- Init-segment refresh for the "video" key (source lines 517-528):
unconditionally drop the cached entry, then re-insert only when the GET
succeeds; every failure is swallowed. -/
def fetchInitVideo (env : PipeEnv) (st : PipeState) (initUrl : Option String) :
    PipeState × List String :=
  match initUrl with
  | none => (st, [])
  | some u =>
    let st1 := { st with initVideo := none }
    match env.fetch u with
    | some bytes => ({ st1 with initVideo := some bytes }, [u])
    | none => (st1, [u])

/-- Init-segment refresh for the "audio" key (source lines 530-541). -/
def fetchInitAudio (env : PipeEnv) (st : PipeState) (initUrl : Option String) :
    PipeState × List String :=
  match initUrl with
  | none => (st, [])
  | some u =>
    let st1 := { st with initAudio := none }
    match env.fetch u with
    | some bytes => ({ st1 with initAudio := some bytes }, [u])
    | none => (st1, [u])

/-- `DashToHlsConverter::download_and_process_segments` with the parsed
MPD result (segment URL lists and optional init URLs, the output of
`process_mpd`) supplied as input.  Mirrors the source: early return when
both URL lists equal `last_processed_segments`; init refresh; the pair
loop over `0..min_len`; `last_processed_segments` updated only when the
loop finishes without error. -/
def downloadAndProcessSegments (env : PipeEnv)
    (videoSegments : List String) (videoInit : Option String)
    (audioSegments : List String) (audioInit : Option String)
    (st : PipeState) : RunOut :=
  if videoSegments = st.lastProcessed.1 ∧ audioSegments = st.lastProcessed.2 then
    { state := st, fetched := [], emitted := [], result := .ok () }
  else
    let vi := fetchInitVideo env st videoInit
    let ai := fetchInitAudio env vi.1 audioInit
    let minLen := min videoSegments.length audioSegments.length
    let out := pairLoop env videoSegments audioSegments ai.1
      (vi.2 ++ ai.2) [] (List.range minLen)
    match out.result with
    | .ok _ =>
      { out with state := { out.state with
          lastProcessed := (videoSegments, audioSegments) } }
    | .error _ => out

/-! ## Helper lemmas about the file-system model -/

theorem fsRemove_cons_hit (e : String × List Nat) (rest : List (String × List Nat))
    (p : String) (hp : e.1 = p) : fsRemove (e :: rest) p = fsRemove rest p := by
  simp [fsRemove, hp]

theorem fsRemove_cons_miss (e : String × List Nat) (rest : List (String × List Nat))
    (p : String) (hp : ¬ e.1 = p) : fsRemove (e :: rest) p = e :: fsRemove rest p := by
  simp [fsRemove, hp]

theorem fsHas_fsRemove_self (fs : List (String × List Nat)) (p : String) :
    fsHas (fsRemove fs p) p = false := by
  induction fs with
  | nil => rfl
  | cons e rest ih =>
    by_cases h : e.1 = p
    · rw [fsRemove_cons_hit e rest p h]
      exact ih
    · rw [fsRemove_cons_miss e rest p h]
      simp only [fsHas, List.any_cons, Bool.or_eq_false_iff]
      exact ⟨by simp [h], ih⟩

theorem fsHas_fsRemove_of_false (fs : List (String × List Nat)) (p q : String)
    (h : fsHas fs q = false) : fsHas (fsRemove fs p) q = false := by
  induction fs with
  | nil => rfl
  | cons e rest ih =>
    simp only [fsHas, List.any_cons, Bool.or_eq_false_iff] at h
    by_cases hp : e.1 = p
    · rw [fsRemove_cons_hit e rest p hp]
      exact ih h.2
    · rw [fsRemove_cons_miss e rest p hp]
      simp only [fsHas, List.any_cons, Bool.or_eq_false_iff]
      exact ⟨h.1, ih h.2⟩

/-! ## Helper lemmas about the pair loop -/

theorem pairLoop_lastProcessed (env : PipeEnv) (vs aus : List String) :
    ∀ (idxs : List Nat) (st : PipeState) (f : List String)
      (em : List (String × String)),
    (pairLoop env vs aus st f em idxs).state.lastProcessed = st.lastProcessed := by
  intro idxs
  induction idxs with
  | nil => intro st f em; rfl
  | cons i rest ih =>
    intro st f em
    unfold pairLoop
    split
    · rfl
    · dsimp only
      split
      · exact ih st f em
      · split
        · rfl
        · split
          · rfl
          · split
            · rfl
            · split
              · rfl
              · exact ih _ _ _

theorem pairLoop_seq (env : PipeEnv) (vs aus : List String) :
    ∀ (idxs : List Nat) (st : PipeState) (f : List String)
      (em : List (String × String)),
    (pairLoop env vs aus st f em idxs).state.seq = st.seq := by
  intro idxs
  induction idxs with
  | nil => intro st f em; rfl
  | cons i rest ih =>
    intro st f em
    unfold pairLoop
    split
    · rfl
    · dsimp only
      split
      · exact ih st f em
      · split
        · rfl
        · split
          · rfl
          · split
            · rfl
            · split
              · rfl
              · exact ih _ _ _

theorem fetchInitVideo_fst (env : PipeEnv) (st : PipeState) (u : Option String) :
    ∃ iv, (fetchInitVideo env st u).1 = { st with initVideo := iv } := by
  cases u with
  | none => exact ⟨st.initVideo, rfl⟩
  | some u =>
    cases h : env.fetch u with
    | none => exact ⟨none, by simp [fetchInitVideo, h]⟩
    | some bytes => exact ⟨some bytes, by simp [fetchInitVideo, h]⟩

theorem fetchInitAudio_fst (env : PipeEnv) (st : PipeState) (u : Option String) :
    ∃ ia, (fetchInitAudio env st u).1 = { st with initAudio := ia } := by
  cases u with
  | none => exact ⟨st.initAudio, rfl⟩
  | some u =>
    cases h : env.fetch u with
    | none => exact ⟨none, by simp [fetchInitAudio, h]⟩
    | some bytes => exact ⟨some bytes, by simp [fetchInitAudio, h]⟩

/-- Along the pair loop, if the two temp files of this sequence number
are absent initially and the loop returns without error, they are
absent from the final scratch directory (each successful pair removes
what it wrote; the sequence number never changes). -/
theorem pairLoop_temps_absent (env : PipeEnv) (vs aus : List String) :
    ∀ (idxs : List Nat) (st : PipeState) (f : List String)
      (em : List (String × String)),
    fsHas st.fs (videoTempFile st.seq) = false →
    fsHas st.fs (audioTempFile st.seq) = false →
    (pairLoop env vs aus st f em idxs).result = .ok () →
    fsHas (pairLoop env vs aus st f em idxs).state.fs (videoTempFile st.seq) = false ∧
    fsHas (pairLoop env vs aus st f em idxs).state.fs (audioTempFile st.seq) = false := by
  intro idxs
  induction idxs with
  | nil => intro st f em hv ha _; exact ⟨hv, ha⟩
  | cons i rest ih =>
    intro st f em hv ha
    unfold pairLoop
    split
    · intro _; exact ⟨hv, ha⟩
    · dsimp only
      split
      · intro hok; exact ih st f em hv ha hok
      · split
        · intro hok; simp at hok
        · split
          · intro hok; simp at hok
          · split
            · intro hok; simp at hok
            · split
              · intro hok; simp at hok
              · intro hok
                refine ih _ _ _ ?_ ?_ hok
                · exact fsHas_fsRemove_of_false _ _ _ (fsHas_fsRemove_self _ _)
                · exact fsHas_fsRemove_self _ _

/-- C1 (amended): a `download_and_process_segments` call that returns an
error — a segment download, decrypt, mux or writer-append failure at any
pair index — leaves the stored `last_processed_segments` pair unchanged,
so every URL of the failed iteration is eligible to be retried. -/
theorem dps_error_preserves_lastProcessed (env : PipeEnv)
    (vs : List String) (vi : Option String)
    (aus : List String) (ai : Option String) (st : PipeState)
    (h : (downloadAndProcessSegments env vs vi aus ai st).result ≠ .ok ()) :
    (downloadAndProcessSegments env vs vi aus ai st).state.lastProcessed
      = st.lastProcessed := by
  revert h
  unfold downloadAndProcessSegments
  split
  · intro h; exact absurd rfl h
  · dsimp only
    split
    · next val heq =>
      intro h
      rw [heq] at h
      exact absurd rfl h
    · next e heq =>
      intro _
      rw [pairLoop_lastProcessed]
      obtain ⟨iv, hiv⟩ := fetchInitVideo_fst env st vi
      obtain ⟨ia, hia⟩ := fetchInitAudio_fst env (fetchInitVideo env st vi).1 ai
      rw [hia, hiv]

/-- C2 (amended): when a `download_and_process_segments` call returns
without error and neither temp file of the current sequence number was
present beforehand, neither is present afterwards (each successful pair
deletes the two files it wrote). -/
theorem dps_ok_temps_absent (env : PipeEnv)
    (vs : List String) (vi : Option String)
    (aus : List String) (ai : Option String) (st : PipeState)
    (hv : fsHas st.fs (videoTempFile st.seq) = false)
    (ha : fsHas st.fs (audioTempFile st.seq) = false)
    (hok : (downloadAndProcessSegments env vs vi aus ai st).result = .ok ()) :
    fsHas (downloadAndProcessSegments env vs vi aus ai st).state.fs
      (videoTempFile st.seq) = false ∧
    fsHas (downloadAndProcessSegments env vs vi aus ai st).state.fs
      (audioTempFile st.seq) = false := by
  revert hok
  unfold downloadAndProcessSegments
  split
  · intro _; exact ⟨hv, ha⟩
  · dsimp only
    obtain ⟨iv, hiv⟩ := fetchInitVideo_fst env st vi
    obtain ⟨ia, hia⟩ := fetchInitAudio_fst env (fetchInitVideo env st vi).1 ai
    rw [hia, hiv]
    split
    · next val heq =>
      intro _
      exact pairLoop_temps_absent env vs aus _ _ _ _ hv ha heq
    · next e heq =>
      intro hok
      rw [heq] at hok
      exact Except.noConfusion hok

/-! ## Concrete environments and runs -/

/-- Environment in which every fetch, decrypt, mux and writer append
succeeds. -/
def allOkEnv : PipeEnv :=
  { fetch := fun _ => some [1]
    decrypt := fun b => .ok b
    mux := fun _ _ => .ok [9]
    pusherWrite := fun _ => .ok () }

/-- Environment in which only the segment URL "v2" fails to download. -/
def failV2Env : PipeEnv :=
  { allOkEnv with fetch := fun u => if u = "v2" then none else some [1] }

/-- Environment in which muxing always fails. -/
def muxFailEnv : PipeEnv :=
  { allOkEnv with mux := fun _ _ => .error "ffmpeg muxing failed" }

/-- A freshly constructed converter state (`DashToHlsConverter::new`
followed by `start`): empty dedup lists, sequence number 0, no cached
init segments, active, empty scratch directory. -/
def freshState : PipeState :=
  { lastProcessed := ([], []), seq := 0, initVideo := none, initAudio := none
    isActive := true, fs := [] }

/-- Iteration that emits the pair ("v1", "a1") and then fails
downloading "v2": the iteration aborts mid-way after one emission. -/
def c1FailedRun : RunOut :=
  downloadAndProcessSegments failV2Env ["v1", "v2"] none ["a1", "a2"] none freshState

/-- The retry iteration over the same manifest, now fully successful. -/
def c1RetryRun : RunOut :=
  downloadAndProcessSegments allOkEnv ["v1", "v2"] none ["a1", "a2"] none
    c1FailedRun.state

/-- C1 is false as stated: the failed iteration emits ("v1", "a1"),
aborts on "v2", leaves `last_processed_segments` unchanged, and the
later successful iteration emits ("v1", "a1") again — the pair is
emitted twice, not exactly once. -/
theorem c1_pair_emitted_twice :
    c1FailedRun.result ≠ .ok () ∧ c1RetryRun.result = .ok () ∧
    (c1FailedRun.emitted ++ c1RetryRun.emitted).count ("v1", "a1") = 2 := by
  decide

/-- C1 witness: the failed iteration of `c1FailedRun` leaves the dedup
pair at its prior value `([], [])`. -/
theorem c1_witness :
    (downloadAndProcessSegments failV2Env ["v1", "v2"] none ["a1", "a2"] none
      freshState).state.lastProcessed = ([], []) :=
  dps_error_preserves_lastProcessed failV2Env ["v1", "v2"] none ["a1", "a2"] none
    freshState (by decide)

/-- Iteration in which both segments of the pair are written to the
scratch directory and the mux step then fails. -/
def c2MuxFailRun : RunOut :=
  downloadAndProcessSegments muxFailEnv ["v1"] none ["a1"] none freshState

/-- C2 is false as stated: when the mux step fails after the two temp
files have been written, the iteration returns with both
`video_0.mp4` and `audio_0.mp4` still present in the scratch
directory — they are not removed on this exit path. -/
theorem c2_mux_failure_leaves_temp_files :
    c2MuxFailRun.result ≠ .ok () ∧
    fsHas c2MuxFailRun.state.fs (videoTempFile 0) = true ∧
    fsHas c2MuxFailRun.state.fs (audioTempFile 0) = true := by
  decide

/-- C2 witness: a fully successful iteration ends with neither temp
file present. -/
theorem c2_witness :
    fsHas (downloadAndProcessSegments allOkEnv ["v1"] none ["a1"] none
      freshState).state.fs (videoTempFile 0) = false ∧
    fsHas (downloadAndProcessSegments allOkEnv ["v1"] none ["a1"] none
      freshState).state.fs (audioTempFile 0) = false :=
  dps_ok_temps_absent allOkEnv ["v1"] none ["a1"] none freshState
    (by decide) (by decide) (by decide)

/-- A fully successful iteration that emits exactly one pair. -/
def c4Run : RunOut :=
  downloadAndProcessSegments allOkEnv ["v1"] none ["a1"] none freshState

/-- C4: the code never increments `sequence_number`.  After a successful
iteration that muxed and appended one pair, the sequence number is still
0, not 1: the field is initialized to 0, used in the temp file names,
and never written again anywhere in the source. -/
theorem c4_seq_never_incremented :
    c4Run.result = .ok () ∧ c4Run.emitted.length = 1 ∧ c4Run.state.seq = 0 := by
  decide

/-- First processed iteration: advertises a video init URL, downloads
and caches it. -/
def c5FirstRun : RunOut :=
  downloadAndProcessSegments allOkEnv ["v1"] (some "http://x/init.mp4")
    ["a1"] none freshState

/-- Second processed iteration: the manifest still advertises the same
video init URL; the segment lists changed. -/
def c5SecondRun : RunOut :=
  downloadAndProcessSegments allOkEnv ["v2"] (some "http://x/init.mp4")
    ["a2"] none c5FirstRun.state

/-- C5: the init segment is re-downloaded on every processed iteration.
Across two successful iterations advertising the same init URL the URL
is fetched twice, contradicting the at-most-once claim (and the
source's own comment "Download init segments (only once)"): the code
unconditionally removes the cached entry and issues a new GET whenever
the manifest carries an init template. -/
theorem c5_init_refetched_every_iteration :
    c5FirstRun.result = .ok () ∧ c5SecondRun.result = .ok () ∧
    (c5FirstRun.fetched ++ c5SecondRun.fetched).count "http://x/init.mp4" = 2 := by
  decide

/-! ## Manifest model (`extract_segments`, `compute_segment_times`)

The `dash_mpd` structures are embedded with exactly the fields the
source reads.  `BaseURL` lists carry the `.base` strings.  The source
stores `SegmentTemplate.duration` as an `f64` (default `1.0`) and
truncates it to an integer wherever it is used (`duration as i64`, and
`(secs * timescale) as f64 / duration) as usize`); the model uses a
`Nat` duration, which coincides with the source on the integral
durations the claims are about. -/

/-- One `<S>` element of a SegmentTimeline (`dash_mpd::S`):
optional explicit start `t`, duration `d`, optional repeat count `r`. -/
structure Sseg where
  t : Option Int
  d : Int
  r : Option Int
deriving DecidableEq

/-- The inner `for _ in 0..=repeat` loop of `compute_segment_times`:
push the running time `n` times, advancing by `d` each push, and return
the pushed times together with the final running time.  (`n` is the
Rust range size `repeat + 1`, which is 0 when `repeat is negative.) -/
def pushTimes (t d : Int) : Nat → List Int × Int
  | 0 => ([], t)
  | n + 1 =>
    let rest := pushTimes (t + d) d n
    (t :: rest.1, rest.2)

/-- The `for item in timeline` loop of `compute_segment_times`,
threading the running time. -/
def computeSegmentTimesAux (cur : Int) : List Sseg → List Int
  | [] => []
  | item :: rest =>
    let p := pushTimes cur item.d (item.r.getD 0 + 1).toNat
    p.1 ++ computeSegmentTimesAux p.2 rest

/-- `compute_segment_times` (dash_to_hls.rs:645-658): the running time
starts at the first entry's explicit `t` (0 when absent); every entry
pushes `r + 1` times (`r` defaulting to 0), advancing by its `d`. -/
def computeSegmentTimes (timeline : List Sseg) : List Int :=
  computeSegmentTimesAux ((timeline.head?.bind (fun s => s.t)).getD 0) timeline

/-- Spec-level description of one timeline entry's times, in closed
form: `r+1` times `t + d * i`. -/
def specEntryTimes (t d : Int) (n : Nat) : List Int :=
  (List.range n).map (fun i : Nat => t + d * (i : Int))

/-- Spec-level description of the whole timeline expansion: the running
time is carried across entries as `t + d * (r + 1)`. -/
def specSegmentTimesAux (t : Int) : List Sseg → List Int
  | [] => []
  | item :: rest =>
    let n := (item.r.getD 0 + 1).toNat
    specEntryTimes t item.d n ++ specSegmentTimesAux (t + item.d * n) rest

/-- Spec-level segment time computation: start at the first entry's
explicit start (default 0), emit `r+1` times per entry beginning at the
current running time and increasing by `d` per step. -/
def specSegmentTimes (timeline : List Sseg) : List Int :=
  specSegmentTimesAux ((timeline.head?.bind (fun s => s.t)).getD 0) timeline

/-- Does the character list start with the given pattern? -/
def listStartsWith : List Char → List Char → Bool
  | _, [] => true
  | [], _ :: _ => false
  | c :: s, p :: ps => c == p && listStartsWith s ps

/-- `str::starts_with`, over the character lists so that it reduces in
the kernel. -/
def strStartsWith (s pat : String) : Bool :=
  listStartsWith s.data pat.data

/-- Fuel-bounded `str::replace` over character lists: replace every
non-overlapping occurrence of `pat` (non-empty in all uses here) by
`rep`, scanning left to right.  Written with explicit fuel so that it
reduces in the kernel; fuel `s.length` always suffices. -/
def replaceFuel (pat rep : List Char) : Nat → List Char → List Char
  | 0, s => s
  | fuel + 1, s =>
    match s with
    | [] => []
    | c :: rest =>
      if listStartsWith s pat then
        rep ++ replaceFuel pat rep fuel (s.drop pat.length)
      else c :: replaceFuel pat rep fuel rest

/-- `str::replace`, modelled over the character lists. -/
def strReplace (s pat rep : String) : String :=
  String.mk (replaceFuel pat.data rep.data s.data.length s.data)

/-! ## Base URL computation (`extract_segments`, lines 296-333) -/

/-- `str::trim_end_matches('/')`, written over the character list so
that it reduces in the kernel. -/
def trimEndSlash (s : String) : String :=
  String.mk ((s.data.reverse.dropWhile (fun c => c = '/')).reverse)

/-- The base-URL folding actually performed by `extract_segments`:
starting from the manifest URL, the representation's first `BaseURL`
entry — documented in the source as the "MPD level" base — replaces the
accumulator unconditionally when present; then the period's first entry
and the representation's first entry again are each applied
conditionally (absolute replaces, relative joins after stripping the
accumulator's trailing slashes). -/
def computeBaseUrl (mpdUrl : String) (repBase periodBase : List String) : String :=
  let b1 := match repBase.head? with
    | some u => u
    | none => mpdUrl
  let b2 := match periodBase.head? with
    | some u => if strStartsWith u "http" then u else trimEndSlash b1 ++ "/" ++ u
    | none => b1
  match repBase.head? with
  | some u => if strStartsWith u "http" then u else trimEndSlash b2 ++ "/" ++ u
  | none => b2

/-- One conditional base-URL fold step as the spec words it: an
absolute entry replaces the accumulator, a relative entry is joined
onto it after stripping the trailing separator. -/
def applyBaseEntry (acc entry : String) : String :=
  if strStartsWith entry "http" then entry else trimEndSlash acc ++ "/" ++ entry

def applyBaseEntryOpt (acc : String) (entry : Option String) : String :=
  match entry with
  | none => acc
  | some u => applyBaseEntry acc u

/-- The base-URL fold exactly as claim C6 words it: left-fold the
manifest base, then the period base, then the representation base, each
present entry applied conditionally. -/
def computeBaseUrlClaim (mpdUrl : String)
    (manifestBase periodBase repBase : Option String) : String :=
  applyBaseEntryOpt (applyBaseEntryOpt (applyBaseEntryOpt mpdUrl manifestBase)
    periodBase) repBase

/-- The fold the code actually performs, phrased as the claim phrases
its fold: the manifest-level base is never consulted; the sequence of
applied entries is representation (unconditional replacement), period
(conditional), representation again (conditional). -/
def computeBaseUrlAmended (mpdUrl : String) (repBase periodBase : List String) :
    String :=
  let afterRep := match repBase.head? with
    | some u => u
    | none => mpdUrl
  applyBaseEntryOpt (applyBaseEntryOpt afterRep periodBase.head?) repBase.head?

/-! ## `extract_segments` -/

/-- `dash_mpd::SegmentTemplate`, restricted to the fields the source
reads; `timeline` is `SegmentTimeline.segments`. -/
structure SegTemplate where
  initTemplate : Option String
  media : Option String
  duration : Option Nat
  timescale : Option Nat
  timeline : Option (List Sseg)
deriving DecidableEq

/-- `dash_mpd::Representation`, restricted: `baseURLs` are the `.base`
strings, `segmentList` the `segment_urls` media fields. -/
structure DashRep where
  id : Option String
  bandwidth : Option Nat
  baseURLs : List String
  segmentTemplate : Option SegTemplate
  segmentList : Option (List (Option String))
deriving DecidableEq

structure AdaptationSet where
  segmentTemplate : Option SegTemplate
  representations : List DashRep
deriving DecidableEq

structure DashPeriod where
  baseURLs : List String
  duration : Option Nat
  adaptations : List AdaptationSet
deriving DecidableEq

structure MPDm where
  mpdtype : Option String
  periods : List DashPeriod
deriving DecidableEq

/-- `representation.SegmentTemplate.as_ref().or_else(...)`: fall back
to the segment template of the adaptation set containing a
representation with the same id. -/
def effectiveTemplate (mpd : MPDm) (rep : DashRep) : Option SegTemplate :=
  match rep.segmentTemplate with
  | some t => some t
  | none =>
    match (mpd.periods.flatMap (fun p => p.adaptations)).find?
        (fun a => a.representations.any (fun r2 => r2.id == rep.id)) with
    | some a => a.segmentTemplate
    | none => none

def substRepId (tpl : String) (id : Option String) : String :=
  strReplace tpl "$RepresentationID$" (id.getD "")

def substTime (tpl : String) (time : Int) : String :=
  strReplace tpl "$Time$" (toString time)

/-- URL resolution against the folded base: an absolute (http-prefixed)
substituted string is used as is, otherwise it is joined via the `url`
crate's parse-and-join, which is external and therefore supplied as the
`urlJoin` parameter (it also absorbs the source's `"broken"` fallback
for an unparsable base). -/
def resolveUrl (urlJoin : String → String → String) (base url : String) : String :=
  if strStartsWith url "http" then url else urlJoin base url

/-- The last `n` entries of a list (what `skip(len - n)` keeps). -/
def lastN (n : Nat) (l : List String) : List String :=
  l.drop (l.length - n)

/-- `DashToHlsConverter::extract_segments` (dash_to_hls.rs:290-449):
fold the base URL, then produce the segment URL list from the segment
template (timeline times or a count estimated from the period
duration), the segment list, or the bare representation base URL; for
live (`dynamic`) manifests keep only the last 20 entries of whatever
list was built. -/
def extractSegments (urlJoin : String → String → String) (mpd : MPDm)
    (rep : DashRep) (baseUrl : String) :
    Except String (List String × Option String) :=
  match mpd.periods.head? with
  | none => .error "No period found"
  | some period =>
    let baseUrlStr := computeBaseUrl baseUrl rep.baseURLs period.baseURLs
    let isLive := mpd.mpdtype == some "dynamic"
    let branch : Except String (List String × Option String) :=
      match effectiveTemplate mpd rep with
      | some tmpl =>
        let initSeg := tmpl.initTemplate.map (fun it =>
          resolveUrl urlJoin baseUrlStr (substRepId it rep.id))
        let duration := tmpl.duration.getD 1
        let timescale := tmpl.timescale.getD 1
        let segmentCount := match tmpl.timeline with
          | some tl => tl.length
          | none => (period.duration.getD 60 * timescale) / duration
        let segmentCount := if isLive then min 20 segmentCount else segmentCount
        let times : List Int := match tmpl.timeline with
          | some tl => computeSegmentTimes tl
          | none => (List.range segmentCount).map (fun i : Nat => (i : Int) * (duration : Int))
        let segments := match tmpl.media with
          | none => []
          | some m => times.map (fun time =>
              resolveUrl urlJoin baseUrlStr (substTime (substRepId m rep.id) time))
        .ok (segments, initSeg)
      | none =>
        match rep.segmentList with
        | some segUrls =>
          let segments := (segUrls.filterMap id).map (fun m =>
            if strStartsWith m "http" then m
            else trimEndSlash baseUrlStr ++ "/" ++ m)
          .ok (segments, none)
        | none =>
          match rep.baseURLs.head? with
          | some b => .ok ([b], none)
          | none => .error "Could not find segment information for representation"
    match branch with
    | .error e => .error e
    | .ok (segments, initSeg) =>
      let segments := if isLive && segments.length > 20 then
          segments.drop (segments.length - 20)
        else segments
      .ok (segments, initSeg)

/-- C6 is false as stated: a relative representation base is not folded
after the manifest and period bases — the code first replaces the
accumulator with it unconditionally (even though it is relative,
discarding the manifest URL) and then joins it onto itself.  With
representation base "rep" and no period base the code yields "rep/rep"
where the claimed fold yields "http://h/a.mpd/rep". -/
theorem c6_rep_base_replaces_unconditionally :
    computeBaseUrl "http://h/a.mpd" ["rep"] [] = "rep/rep" ∧
    computeBaseUrlClaim "http://h/a.mpd" none none (some "rep")
      = "http://h/a.mpd/rep" ∧
    computeBaseUrl "http://h/a.mpd" ["rep"] []
      ≠ computeBaseUrlClaim "http://h/a.mpd" none none (some "rep") := by
  decide

/-- C6 (amended): the resolver never consults the manifest-level
BaseURL; it left-folds, over the manifest URL, the sequence
representation base (unconditional replacement when present, even when
relative), then period base, then representation base again, the latter
two conditionally (an absolute entry replaces the accumulator, a
relative one is joined after stripping the accumulator's trailing
separator). -/
theorem computeBaseUrl_eq_amended (mpdUrl : String)
    (repBase periodBase : List String) :
    computeBaseUrl mpdUrl repBase periodBase
      = computeBaseUrlAmended mpdUrl repBase periodBase := by
  cases hr : repBase.head? with
  | none =>
    cases hp : periodBase.head? with
    | none => simp [computeBaseUrl, computeBaseUrlAmended, applyBaseEntryOpt, hr, hp]
    | some u =>
      simp [computeBaseUrl, computeBaseUrlAmended, applyBaseEntryOpt,
        applyBaseEntry, hr, hp]
  | some v =>
    cases hp : periodBase.head? with
    | none =>
      simp [computeBaseUrl, computeBaseUrlAmended, applyBaseEntryOpt,
        applyBaseEntry, hr, hp]
    | some u =>
      simp [computeBaseUrl, computeBaseUrlAmended, applyBaseEntryOpt,
        applyBaseEntry, hr, hp]

/-! ## C7: timeline expansion -/

theorem specEntryTimes_succ (t d : Int) (n : Nat) :
    specEntryTimes t d (n + 1) = t :: specEntryTimes (t + d) d n := by
  unfold specEntryTimes
  rw [List.range_succ_eq_map]
  simp only [List.map_cons, List.map_map, Nat.cast_zero, mul_zero, add_zero]
  have hfun : ((fun i : Nat => t + d * (i : Int)) ∘ Nat.succ)
      = (fun i : Nat => (t + d) + d * (i : Int)) := by
    funext i
    simp only [Function.comp_apply, Nat.succ_eq_add_one]
    push_cast
    ring
  rw [hfun]

theorem pushTimes_eq (n : Nat) (t d : Int) :
    pushTimes t d n = (specEntryTimes t d n, t + d * n) := by
  induction n generalizing t with
  | zero =>
    unfold pushTimes specEntryTimes
    simp
  | succ k ih =>
    unfold pushTimes
    rw [ih (t + d), specEntryTimes_succ]
    dsimp only
    congr 1
    push_cast
    ring

theorem computeSegmentTimesAux_eq (tl : List Sseg) :
    ∀ t, computeSegmentTimesAux t tl = specSegmentTimesAux t tl := by
  induction tl with
  | nil => intro t; rfl
  | cons item rest ih =>
    intro t
    unfold computeSegmentTimesAux specSegmentTimesAux
    dsimp only
    rw [pushTimes_eq]
    dsimp only
    rw [ih]

/-- C7: for every SegmentTimeline, `compute_segment_times` starts the
running time at the first entry's explicit start (0 when absent) and
emits, for each entry with duration `d` and repeat count `r`
(default 0), `r+1` times `t, t+d, ..., t+r·d` beginning at the current
running time; in particular the single entry `t = 5000, d = 1000,
r = 3` expands to `[5000, 6000, 7000, 8000]`. -/
theorem computeSegmentTimes_spec :
    (∀ tl : List Sseg, computeSegmentTimes tl = specSegmentTimes tl) ∧
    computeSegmentTimes [⟨some 5000, 1000, some 3⟩] = [5000, 6000, 7000, 8000] := by
  constructor
  · intro tl
    unfold computeSegmentTimes specSegmentTimes
    rw [computeSegmentTimesAux_eq]
  · decide

/-! ## C3: live-window capping in `extract_segments` -/

theorem effectiveTemplate_of_some (mpd : MPDm) (rep : DashRep) (tmpl : SegTemplate)
    (h : rep.segmentTemplate = some tmpl) :
    effectiveTemplate mpd rep = some tmpl := by
  unfold effectiveTemplate
  rw [h]

/-- The final live trimming step (`skip(len - 20)` guarded by
`len > 20`) always yields exactly the last 20 entries. -/
theorem liveTrim_eq_lastN (l : List String) :
    (if (decide (l.length > 20)) = true then l.drop (l.length - 20) else l)
      = lastN 20 l := by
  by_cases h : l.length > 20
  · simp [h, lastN]
  · simp [h, lastN, Nat.sub_eq_zero_of_le (le_of_not_lt h)]

/-- C3 (amended): for a dynamic manifest whose representation carries a
segment template with a media template, the timeline path emits the
last 20 entries of the full resolved list, but the duration-derived
path caps the segment count at 20 before generating times, so it emits
the URLs of the first `min 20 count` arithmetic times `i · d` — not the
last 20. -/
theorem extractSegments_dynamic_window (uj : String → String → String)
    (mpd : MPDm) (rep : DashRep) (baseUrl : String) (period : DashPeriod)
    (tmpl : SegTemplate) (m : String)
    (hdyn : mpd.mpdtype = some "dynamic")
    (hper : mpd.periods.head? = some period)
    (htm : rep.segmentTemplate = some tmpl)
    (hm : tmpl.media = some m) :
    (∀ tl, tmpl.timeline = some tl →
      extractSegments uj mpd rep baseUrl = .ok
        (lastN 20 ((computeSegmentTimes tl).map (fun time =>
            resolveUrl uj (computeBaseUrl baseUrl rep.baseURLs period.baseURLs)
              (substTime (substRepId m rep.id) time))),
         tmpl.initTemplate.map (fun it =>
            resolveUrl uj (computeBaseUrl baseUrl rep.baseURLs period.baseURLs)
              (substRepId it rep.id)))) ∧
    (tmpl.timeline = none →
      extractSegments uj mpd rep baseUrl = .ok
        (((List.range (min 20 ((period.duration.getD 60 * tmpl.timescale.getD 1)
              / tmpl.duration.getD 1))).map
            (fun i : Nat => (i : Int) * (tmpl.duration.getD 1 : Int))).map
            (fun time => resolveUrl uj (computeBaseUrl baseUrl rep.baseURLs period.baseURLs)
              (substTime (substRepId m rep.id) time)),
         tmpl.initTemplate.map (fun it =>
            resolveUrl uj (computeBaseUrl baseUrl rep.baseURLs period.baseURLs)
              (substRepId it rep.id)))) := by
  constructor
  · intro tl htl
    unfold extractSegments
    rw [hper]
    dsimp only
    rw [effectiveTemplate_of_some mpd rep tmpl htm]
    dsimp only
    rw [htl, hm, hdyn]
    dsimp only
    simp only [beq_self_eq_true, Bool.true_and]
    rw [liveTrim_eq_lastN]
  · intro htl
    unfold extractSegments
    rw [hper]
    dsimp only
    rw [effectiveTemplate_of_some mpd rep tmpl htm]
    dsimp only
    rw [htl, hm, hdyn]
    dsimp only
    simp only [beq_self_eq_true, Bool.true_and, if_true]
    rw [liveTrim_eq_lastN]
    have hlen : (((List.range (min 20 ((period.duration.getD 60 * tmpl.timescale.getD 1)
        / tmpl.duration.getD 1))).map
          (fun i : Nat => (i : Int) * (tmpl.duration.getD 1 : Int))).map
          (fun time => resolveUrl uj (computeBaseUrl baseUrl rep.baseURLs period.baseURLs)
            (substTime (substRepId m rep.id) time))).length ≤ 20 := by
      simp [List.length_map, List.length_range]
    unfold lastN
    rw [Nat.sub_eq_zero_of_le hlen, List.drop_zero]

/-- A dynamic manifest with one period of 50 seconds and no timeline. -/
def c3Period : DashPeriod :=
  { baseURLs := [], duration := some 50, adaptations := [] }

def c3Mpd : MPDm :=
  { mpdtype := some "dynamic", periods := [c3Period] }

/-- Segment template deriving its count from the period duration:
50 s × timescale 1 ÷ duration 1 = 50 segments. -/
def c3Tmpl : SegTemplate :=
  { initTemplate := none, media := some "http://h/s_$Time$.mp4"
    duration := some 1, timescale := some 1, timeline := none }

def c3Rep : DashRep :=
  { id := none, bandwidth := none, baseURLs := []
    segmentTemplate := some c3Tmpl, segmentList := none }

/-- The full resolved list the claim speaks about: all 50 segment URLs. -/
def c3FullList : List String :=
  (List.range 50).map (fun i => "http://h/s_" ++ toString i ++ ".mp4")

/-- C3 is false as stated: for a dynamic manifest whose 50-segment list
is derived from period duration × timescale ÷ segment duration, the
resolver emits the first 20 URLs (times 0·d .. 19·d), not the last 20
of the full resolved list. -/
theorem c3_count_path_emits_first_20 :
    extractSegments (fun _ r => r) c3Mpd c3Rep "http://h/a.mpd"
      = .ok ((List.range 20).map (fun i => "http://h/s_" ++ toString i ++ ".mp4"),
          none) ∧
    c3FullList.length = 50 ∧
    (List.range 20).map (fun i => "http://h/s_" ++ toString i ++ ".mp4")
      ≠ lastN 20 c3FullList := by
  decide

/-- C3 witness: the amended theorem, instantiated on the concrete
dynamic 50-segment count-derived manifest. -/
theorem c3_witness :
    extractSegments (fun _ r => r) c3Mpd c3Rep "http://h/a.mpd"
      = .ok (((List.range (min 20 ((c3Period.duration.getD 60 * c3Tmpl.timescale.getD 1)
              / c3Tmpl.duration.getD 1))).map
            (fun i : Nat => (i : Int) * (c3Tmpl.duration.getD 1 : Int))).map
            (fun time => resolveUrl (fun _ r => r)
              (computeBaseUrl "http://h/a.mpd" c3Rep.baseURLs c3Period.baseURLs)
              (substTime (substRepId "http://h/s_$Time$.mp4" c3Rep.id) time)),
         c3Tmpl.initTemplate.map (fun it =>
            resolveUrl (fun _ r => r)
              (computeBaseUrl "http://h/a.mpd" c3Rep.baseURLs c3Period.baseURLs)
              (substRepId it c3Rep.id))) :=
  (extractSegments_dynamic_window (fun _ r => r) c3Mpd c3Rep "http://h/a.mpd"
    c3Period c3Tmpl "http://h/s_$Time$.mp4" rfl rfl rfl rfl).2 rfl

/-! ## C8: `decrypt_segment` (dash_to_hls.rs:451-498)

The external pieces are parameters: `mp4decryptResult` is the outcome
of the in-process `mp4decrypt::mp4decrypt` call; `spawnResult` collapses
every fallible child-process I/O step of the ffmpeg fallback (spawn,
stdin write, flush, stdout read), each of which propagates with `?`;
`stdoutTaken` is `child.stdout.take()` paired with the bytes read to
end of stream — in the source stdout is opened with `Stdio::piped()`,
so it is always `some`, and the bytes read are whatever the subprocess
produced, empty when it failed silently (its exit status is never
inspected). -/
def decryptSegment (key : String) (data : List Nat)
    (mp4decryptResult : Except String (List Nat))
    (spawnResult : Except String Unit)
    (stdoutTaken : Option (List Nat)) : Except String (List Nat) :=
  if key = "" then .ok data
  else
    match mp4decryptResult with
    | .ok output => .ok output
    | .error _ =>
      match spawnResult with
      | .error e => .error e
      | .ok _ =>
        match stdoutTaken with
        | some out => .ok out
        | none => .ok data

/-- C8 is false as stated: with a non-empty key, when the in-process
decoder fails and the ffmpeg fallback runs but writes nothing to its
stdout (it failed silently), the function returns the empty byte
string, not the original input — and a spawn or pipe error is
propagated as an error rather than yielding the original bytes. -/
theorem c8_silent_fallback_returns_empty :
    decryptSegment "6f1c" [1, 2, 3] (.error "decrypt error") (.ok ()) (some [])
      = .ok [] ∧
    decryptSegment "6f1c" [1, 2, 3] (.error "decrypt error") (.ok ()) (some [])
      ≠ .ok [1, 2, 3] ∧
    decryptSegment "6f1c" [1, 2, 3] (.error "decrypt error")
      (.error "spawn failed") none = .error "spawn failed" := by
  decide

/-- C8 (amended): with a non-empty key, when the in-process decoder
fails, the result is whatever the fallback subprocess wrote to its
stdout — including the empty byte string — whenever the child pipes
were obtained without an I/O error; a spawn/pipe I/O error is
propagated as an error.  The `return original bytes` arm exists in the
source but is reachable only when `child.stdout.take()` yields nothing,
which never happens since stdout is piped. -/
theorem decryptSegment_fallback_stdout (key : String) (data out : List Nat)
    (e msg : String) (hkey : key ≠ "") :
    decryptSegment key data (.error e) (.ok ()) (some out) = .ok out ∧
    decryptSegment key data (.error e) (.error msg) none = .error msg ∧
    decryptSegment key data (.error e) (.ok ()) none = .ok data := by
  unfold decryptSegment
  simp [hkey]

/-- C8 witness: the amended theorem at a concrete key and inputs,
including the empty stdout output. -/
theorem c8_witness :
    decryptSegment "6f1c" [7, 8] (.error "x") (.ok ()) (some []) = .ok [] ∧
    decryptSegment "6f1c" [7, 8] (.error "x") (.error "y") none = .error "y" ∧
    decryptSegment "6f1c" [7, 8] (.error "x") (.ok ()) none = .ok [7, 8] :=
  decryptSegment_fallback_stdout "6f1c" [7, 8] [] "x" "y" (by decide)

/-! ## Stream manager model (`main.rs`)

`StreamManager` holds the configured stream ids (`streams` — the
`StreamInfo` payload is irrelevant to these claims since the map key
equals `info.id`), the active converters (`active_streams`, by id), and
the liveness map (`last_access`, id → instant, instants as `Nat`).
`stopped` is instrumentation: the ids the evictor has stopped and
cleaned up, appended at each sweep. -/
structure ManagerState where
  streams : List String
  activeStreams : List String
  lastAccess : List (String × Nat)
  stopped : List String
deriving DecidableEq

/-- `HashMap::insert` on the last-access map. -/
def laTouch (m : List (String × Nat)) (id : String) (now : Nat) :
    List (String × Nat) :=
  (id, now) :: m.filter (fun e => e.1 ≠ id)

/-- `str::ends_with`, over the character lists so that it reduces in
the kernel. -/
def strEndsWith (s pat : String) : Bool :=
  listStartsWith s.data.reverse pat.data.reverse

structure HttpResponse where
  status : Nat
  contentType : Option String
  body : String
deriving DecidableEq

/-- `initialize_stream` (main.rs:122-170): 404 for an unknown id, no-op
when already active, otherwise record the converter in
`active_streams` and spawn its loop.  (`DashToHlsConverter::new` is
modelled as succeeding; its 500 path is out of scope here.)  Note that
`last_access` is not touched. -/
def initStream (st : ManagerState) (id : String) : ManagerState × HttpResponse :=
  if id ∈ st.streams then
    if id ∈ st.activeStreams then
      (st, { status := 200, contentType := none, body := "Stream already active" })
    else
      ({ st with activeStreams := id :: st.activeStreams },
       { status := 200, contentType := none, body := "Stream initialization started" })
  else
    (st, { status := 404, contentType := none, body := "Stream not found" })

/-- `proxy_stream` (main.rs:82-120): only requests for an active stream
update `last_access`; `.m3u8` paths always answer 200 with the playlist
content type and the file contents (empty string when unreadable);
`.ts`/`.m4s` paths answer 404 on a missing file; anything else is 400.
`fsRead` stands for the blocking file reads. -/
def proxyStream (st : ManagerState) (id path : String) (now : Nat)
    (fsRead : String → Option String) : ManagerState × HttpResponse :=
  if id ∈ st.activeStreams then
    let st1 := { st with lastAccess := laTouch st.lastAccess id now }
    if id ∈ st1.streams then
      if strEndsWith path ".m3u8" then
        (st1, { status := 200
                contentType := some "application/vnd.apple.mpegurl"
                body := (fsRead ("./streams/" ++ id ++ "/" ++ path)).getD "" })
      else if strEndsWith path ".ts" || strEndsWith path ".m4s" then
        match fsRead ("./streams/" ++ id ++ "/" ++ path) with
        | some data =>
          (st1, { status := 200, contentType := some "video/mp2t", body := data })
        | none =>
          (st1, { status := 404, contentType := none, body := "Segment not found" })
      else
        (st1, { status := 400, contentType := none, body := "Invalid file type" })
    else
      (st1, { status := 404, contentType := none, body := "Stream not found" })
  else
    (st, { status := 404, contentType := none, body := "Stream not active" })

/-- One evictor sweep (main.rs:231-261): collect from `last_access` the
ids whose age exceeds the timeout, stop and drop each from
`active_streams` and `last_access` (and delete its directory —
recorded in `stopped`). -/
def cleanupSweep (st : ManagerState) (now timeout : Nat) : ManagerState :=
  let toRemove := (st.lastAccess.filter (fun e => timeout < now - e.2)).map
    (fun e => e.1)
  { st with
    activeStreams := st.activeStreams.filter (fun i => ¬ i ∈ toRemove)
    lastAccess := st.lastAccess.filter (fun e => ¬ e.1 ∈ toRemove)
    stopped := st.stopped ++ toRemove }

/-- The manager-facing events: `GET /init/{id}`, a client file request
`GET /streams/{id}/{path}`, and one evictor sweep. -/
inductive MgrEvent
  | activate (id : String)
  | request (id path : String) (now : Nat)
  | sweep (now timeout : Nat)
deriving DecidableEq

def stepEvent (fsRead : String → Option String) (st : ManagerState) :
    MgrEvent → ManagerState
  | .activate id => (initStream st id).1
  | .request id path now => (proxyStream st id path now fsRead).1
  | .sweep now timeout => cleanupSweep st now timeout

def runEvents (fsRead : String → Option String) (st : ManagerState)
    (es : List MgrEvent) : ManagerState :=
  es.foldl (stepEvent fsRead) st

/-- Does this event touch stream `s` as a client request? -/
def touchesStream (s : String) : MgrEvent → Bool
  | .request id _ _ => id == s
  | _ => false

/-- The manager state at service start: configured channels, nothing
active, empty liveness map. -/
def initialManager (streams0 : List String) : ManagerState :=
  { streams := streams0, activeStreams := [], lastAccess := [], stopped := [] }

theorem notMem_keys_filter (m : List (String × Nat)) (p : String × Nat → Bool)
    (s : String) (h : ¬ s ∈ m.map (fun e => e.1)) :
    ¬ s ∈ (m.filter p).map (fun e => e.1) := by
  intro hm
  obtain ⟨e, he, heq⟩ := List.mem_map.1 hm
  exact h (List.mem_map.2 ⟨e, (List.mem_filter.1 he).1, heq⟩)

theorem notMem_keys_laTouch (m : List (String × Nat)) (id : String) (now : Nat)
    (s : String) (hne : s ≠ id) (h : ¬ s ∈ m.map (fun e => e.1)) :
    ¬ s ∈ (laTouch m id now).map (fun e => e.1) := by
  intro hm
  unfold laTouch at hm
  simp only [List.map_cons, List.mem_cons] at hm
  cases hm with
  | inl h1 => exact hne h1
  | inr h2 => exact notMem_keys_filter m _ s h h2

theorem proxyStream_fst (st : ManagerState) (id path : String) (now : Nat)
    (fsRead : String → Option String) :
    (proxyStream st id path now fsRead).1
      = if id ∈ st.activeStreams then
          { st with lastAccess := laTouch st.lastAccess id now }
        else st := by
  unfold proxyStream
  split
  · dsimp only
    split
    · split
      · rfl
      · split
        · split <;> rfl
        · rfl
    · rfl
  · rfl

theorem initStream_fst_lastAccess (st : ManagerState) (id : String) :
    (initStream st id).1.lastAccess = st.lastAccess := by
  unfold initStream
  split
  · split <;> rfl
  · rfl

theorem initStream_fst_stopped (st : ManagerState) (id : String) :
    (initStream st id).1.stopped = st.stopped := by
  unfold initStream
  split
  · split <;> rfl
  · rfl

theorem initStream_fst_active_mem (st : ManagerState) (id s : String)
    (h : s ∈ st.activeStreams) : s ∈ (initStream st id).1.activeStreams := by
  unfold initStream
  split
  · split
    · exact h
    · exact List.mem_cons_of_mem _ h
  · exact h

theorem c9_invariant (fsRead : String → Option String) (s : String) :
    ∀ (es : List MgrEvent) (st : ManagerState),
    (∀ e ∈ es, touchesStream s e = false) →
    s ∈ st.activeStreams →
    ¬ s ∈ st.lastAccess.map (fun e => e.1) →
    ¬ s ∈ st.stopped →
    s ∈ (runEvents fsRead st es).activeStreams ∧
    ¬ s ∈ (runEvents fsRead st es).lastAccess.map (fun e => e.1) ∧
    ¬ s ∈ (runEvents fsRead st es).stopped := by
  intro es
  induction es with
  | nil => intro st _ h1 h2 h3; exact ⟨h1, h2, h3⟩
  | cons e rest ih =>
    intro st hno h1 h2 h3
    have hrest : ∀ e2 ∈ rest, touchesStream s e2 = false :=
      fun e2 he2 => hno e2 (List.mem_cons_of_mem e he2)
    have he : touchesStream s e = false := hno e (List.mem_cons_self e rest)
    refine ih (stepEvent fsRead st e) hrest ?_ ?_ ?_
    · cases e with
      | activate id => exact initStream_fst_active_mem st id s h1
      | request id path now =>
        show s ∈ (proxyStream st id path now fsRead).1.activeStreams
        rw [proxyStream_fst]
        split <;> exact h1
      | sweep now timeout =>
        show s ∈ (cleanupSweep st now timeout).activeStreams
        unfold cleanupSweep
        dsimp only
        refine List.mem_filter.2 ⟨h1, ?_⟩
        simp only [decide_eq_true_eq]
        exact notMem_keys_filter st.lastAccess _ s h2
    · cases e with
      | activate id =>
        show ¬ s ∈ (initStream st id).1.lastAccess.map (fun e => e.1)
        rw [initStream_fst_lastAccess]
        exact h2
      | request id path now =>
        show ¬ s ∈ (proxyStream st id path now fsRead).1.lastAccess.map (fun e => e.1)
        rw [proxyStream_fst]
        have hne : s ≠ id := by
          intro hcontra
          simp [touchesStream, hcontra] at he
        split
        · exact notMem_keys_laTouch st.lastAccess id now s hne h2
        · exact h2
      | sweep now timeout =>
        show ¬ s ∈ (cleanupSweep st now timeout).lastAccess.map (fun e => e.1)
        unfold cleanupSweep
        dsimp only
        exact notMem_keys_filter st.lastAccess _ s h2
    · cases e with
      | activate id =>
        show ¬ s ∈ (initStream st id).1.stopped
        rw [initStream_fst_stopped]
        exact h3
      | request id path now =>
        show ¬ s ∈ (proxyStream st id path now fsRead).1.stopped
        rw [proxyStream_fst]
        split <;> exact h3
      | sweep now timeout =>
        show ¬ s ∈ (cleanupSweep st now timeout).stopped
        unfold cleanupSweep
        dsimp only
        intro hmem
        cases List.mem_append.1 hmem with
        | inl hl => exact h3 hl
        | inr hr => exact notMem_keys_filter st.lastAccess _ s h2 hr

/-- C9: `last_access` gains an entry for a stream id only via a client
request under `/streams/{id}/...`, never at activation, and the evictor
iterates only `last_access`; hence a pipeline activated via
`/init/{id}` and never fetched by any client keeps no last-access
entry and is never stopped, removed from `active_streams`, or cleaned
up by any number of sweeps, whatever else happens to other streams. -/
theorem c9_activated_never_evicted (fsRead : String → Option String)
    (streams0 : List String) (es : List MgrEvent) (s : String)
    (hs : s ∈ streams0)
    (hnp : ∀ e ∈ es, touchesStream s e = false) :
    s ∈ (runEvents fsRead (initialManager streams0)
        (MgrEvent.activate s :: es)).activeStreams ∧
    ¬ s ∈ (runEvents fsRead (initialManager streams0)
        (MgrEvent.activate s :: es)).lastAccess.map (fun e => e.1) ∧
    ¬ s ∈ (runEvents fsRead (initialManager streams0)
        (MgrEvent.activate s :: es)).stopped := by
  refine c9_invariant fsRead s es _ hnp ?_ ?_ ?_
  · show s ∈ (initStream (initialManager streams0) s).1.activeStreams
    unfold initStream initialManager
    simp [hs]
  · show ¬ s ∈ (initStream (initialManager streams0) s).1.lastAccess.map (fun e => e.1)
    rw [initStream_fst_lastAccess]
    simp [initialManager]
  · show ¬ s ∈ (initStream (initialManager streams0) s).1.stopped
    rw [initStream_fst_stopped]
    simp [initialManager]

theorem stepEvent_streams (fsRead : String → Option String) (st : ManagerState)
    (e : MgrEvent) : (stepEvent fsRead st e).streams = st.streams := by
  cases e with
  | activate id =>
    show (initStream st id).1.streams = st.streams
    unfold initStream
    split
    · split <;> rfl
    · rfl
  | request id path now =>
    show (proxyStream st id path now fsRead).1.streams = st.streams
    rw [proxyStream_fst]
    split <;> rfl
  | sweep now timeout => rfl

theorem stepEvent_active_sub (fsRead : String → Option String) (st : ManagerState)
    (e : MgrEvent) (hinv : ∀ x, x ∈ st.activeStreams → x ∈ st.streams) :
    ∀ x, x ∈ (stepEvent fsRead st e).activeStreams
      → x ∈ (stepEvent fsRead st e).streams := by
  intro x hx
  rw [stepEvent_streams]
  revert hx
  cases e with
  | activate id =>
    show x ∈ (initStream st id).1.activeStreams → x ∈ st.streams
    unfold initStream
    by_cases hid : id ∈ st.streams
    · rw [if_pos hid]
      by_cases hact : id ∈ st.activeStreams
      · rw [if_pos hact]
        exact hinv x
      · rw [if_neg hact]
        intro hx
        cases List.mem_cons.1 hx with
        | inl h => exact h ▸ hid
        | inr h => exact hinv x h
    · rw [if_neg hid]
      exact hinv x
  | request id path now =>
    show x ∈ (proxyStream st id path now fsRead).1.activeStreams → x ∈ st.streams
    rw [proxyStream_fst]
    split
    · exact hinv x
    · exact hinv x
  | sweep now timeout =>
    show x ∈ (cleanupSweep st now timeout).activeStreams → x ∈ st.streams
    unfold cleanupSweep
    dsimp only
    intro hx
    exact hinv x (List.mem_filter.1 hx).1

theorem runEvents_active_sub (fsRead : String → Option String) (es : List MgrEvent) :
    ∀ st : ManagerState, (∀ x, x ∈ st.activeStreams → x ∈ st.streams) →
    ∀ x, x ∈ (runEvents fsRead st es).activeStreams
      → x ∈ (runEvents fsRead st es).streams := by
  induction es with
  | nil => intro st h x; exact h x
  | cons e rest ih =>
    intro st h
    exact ih (stepEvent fsRead st e) (stepEvent_active_sub fsRead st e h)

/-- C10: for every active stream of any reachable manager state, a GET
of `/streams/{id}/{path}` with a `.m3u8` path returns HTTP 200 with
content type `application/vnd.apple.mpegurl` — the body is the empty
string when the playlist cannot be read — while a `.ts`/`.m4s` path
with a missing file returns 404; a `.m3u8` request for an active
stream never yields 404. -/
theorem c10_m3u8_never_404 (fsRead : String → Option String)
    (streams0 : List String) (es : List MgrEvent) (s mpath tpath : String)
    (now : Nat)
    (hactive : s ∈ (runEvents fsRead (initialManager streams0) es).activeStreams)
    (hm : strEndsWith mpath ".m3u8" = true)
    (ht : strEndsWith tpath ".ts" = true ∨ strEndsWith tpath ".m4s" = true)
    (htm : strEndsWith tpath ".m3u8" = false)
    (hmiss : fsRead ("./streams/" ++ s ++ "/" ++ tpath) = none) :
    (proxyStream (runEvents fsRead (initialManager streams0) es) s mpath now
        fsRead).2
      = { status := 200, contentType := some "application/vnd.apple.mpegurl",
          body := (fsRead ("./streams/" ++ s ++ "/" ++ mpath)).getD "" } ∧
    (proxyStream (runEvents fsRead (initialManager streams0) es) s tpath now
        fsRead).2
      = { status := 404, contentType := none, body := "Segment not found" } := by
  have hstr : s ∈ (runEvents fsRead (initialManager streams0) es).streams :=
    runEvents_active_sub fsRead es (initialManager streams0)
      (by intro x hx; simp [initialManager] at hx) s hactive
  have hor : (strEndsWith tpath ".ts" || strEndsWith tpath ".m4s") = true := by
    cases ht with
    | inl h => simp [h]
    | inr h => simp [h]
  constructor
  · unfold proxyStream
    rw [if_pos hactive]
    dsimp only
    rw [if_pos hstr]
    rw [if_pos hm]
  · unfold proxyStream
    rw [if_pos hactive]
    dsimp only
    rw [if_pos hstr]
    rw [if_neg ?hfalse]
    case hfalse => rw [htm]; exact Bool.false_ne_true
    rw [if_pos hor, hmiss]

/-- The event trace for the C9 witness: other streams are requested,
swept and activated; "c1" itself is never requested. -/
def c9Events : List MgrEvent :=
  [MgrEvent.request "c2" "master.m3u8" 5, MgrEvent.sweep 1000 120,
   MgrEvent.activate "c2"]

/-- C9 witness: after activating "c1" and running a trace that never
requests it (including an evictor sweep long after), "c1" is still
active, has no last-access entry, and was never stopped. -/
theorem c9_witness :
    "c1" ∈ (runEvents (fun _ => none) (initialManager ["c1", "c2"])
        (MgrEvent.activate "c1" :: c9Events)).activeStreams ∧
    ¬ "c1" ∈ (runEvents (fun _ => none) (initialManager ["c1", "c2"])
        (MgrEvent.activate "c1" :: c9Events)).lastAccess.map (fun e => e.1) ∧
    ¬ "c1" ∈ (runEvents (fun _ => none) (initialManager ["c1", "c2"])
        (MgrEvent.activate "c1" :: c9Events)).stopped :=
  c9_activated_never_evicted (fun _ => none) ["c1", "c2"] c9Events "c1"
    (by decide) (by decide)

/-- C10 witness: an active stream with no files on disk still answers
200 with an empty playlist body for `master.m3u8`, and 404 for a
missing TS segment. -/
theorem c10_witness :
    (proxyStream (runEvents (fun _ => none) (initialManager ["c1"])
        [MgrEvent.activate "c1"]) "c1" "master.m3u8" 7 (fun _ => none)).2
      = { status := 200, contentType := some "application/vnd.apple.mpegurl",
          body := "" } ∧
    (proxyStream (runEvents (fun _ => none) (initialManager ["c1"])
        [MgrEvent.activate "c1"]) "c1" "segment_000.ts" 7 (fun _ => none)).2
      = { status := 404, contentType := none, body := "Segment not found" } :=
  c10_m3u8_never_404 (fun _ => none) ["c1"] [MgrEvent.activate "c1"] "c1"
    "master.m3u8" "segment_000.ts" 7 (by decide) (by decide)
    (Or.inl (by decide)) (by decide) rfl
